import Mathlib

/-!
Verification of the CI check-run popover component
(`src/app/src/ui/check-runs/ci-check-run-popover.tsx`).

The component is shallowly embedded as:
* a data model (`IRefCheck`, `ICombinedRefCheck`, `GitHubRepository`, `Props`,
  `ICICheckRunPopoverState`);
* pure functions transcribed from the source
  (`getCombinedCheckSummary`, `rerunJobs`, `viewCheckRunsOnGitHub`,
  `getCommitRef`);
* a labelled transition system (`Component`, `Event`, `step`, `run`) for the
  subscribe/unsubscribe lifecycle and the two-phase asynchronous enrichment
  performed by `onStatus`.  Each `await` in the source suspends `onStatus`;
  the suspension is modelled by a pending task whose resolution is an
  environment event (`Event.completeJobs` / `Event.completeLogs`) carrying the
  collaborator's result.
-/

namespace CICheckRunPopover

/-- One CI check/status entry (`IRefCheck` from the commit-status store).
`conclusion` is the raw conclusion string (`null` for in-progress checks),
`htmlUrl` and `checkSuiteId` are nullable in the source. -/
structure IRefCheck where
  name : String
  conclusion : Option String
  htmlUrl : Option String
  checkSuiteId : Option Int
  deriving Repr, DecidableEq

/-- `ICombinedRefCheck`: the combined status for a ref, an ordered list of checks. -/
structure ICombinedRefCheck where
  checks : List IRefCheck
  deriving Repr, DecidableEq

/-- The slice of `GitHubRepository` the component reads: the identity hash and
the nullable base html URL. -/
structure GitHubRepository where
  hash : String
  htmlURL : Option String
  deriving Repr, DecidableEq

/-- The component's props (the dispatcher and close callback are capabilities,
not data, and are modelled by the transition system's events/outputs). -/
structure Props where
  repository : GitHubRepository
  branchName : String
  prNumber : Nat
  deriving Repr, DecidableEq

/-- `ICICheckRunPopoverState`: the visible state. -/
structure ICICheckRunPopoverState where
  checkRuns : List IRefCheck
  checkRunSummary : String
  loadingActionLogs : Bool
  loadingActionWorkflows : Bool
  deriving Repr, DecidableEq

/-- `getCommitRef`: the computed ref string for a PR number. -/
def getCommitRef (prNumber : Nat) : String :=
  "refs/pull/" ++ toString prNumber ++ "/head"

/-- Modelled from the spec: `getCheckRunConclusionAdjective` is imported from
`lib/stores/commit-status-store`, which is not under `src/`.  The spec
describes it as "a fixed mapping from conclusion enum to a human adjective"
(success → successful, failure → failed, null/unknown → in progress). -/
def getCheckRunConclusionAdjective : Option String → String
  | none => "In progress"
  | some c =>
    if c = "timed_out" then "Timed out"
    else if c = "failure" then "Failed"
    else if c = "neutral" then "Neutral"
    else if c = "success" then "Successful"
    else if c = "cancelled" then "Cancelled"
    else if c = "action_required" then "Action required"
    else if c = "skipped" then "Skipped"
    else "In progress"

/-- ASCII lowering of one character (the conclusion adjectives are ASCII). -/
def asciiLowerChar (ch : Char) : Char :=
  if 'A' ≤ ch ∧ ch ≤ 'Z' then Char.ofNat (ch.toNat + 32) else ch

/-- `String.prototype.toLocaleLowerCase` restricted to ASCII input. -/
def toLocaleLowerCase (s : String) : String :=
  String.mk (s.data.map asciiLowerChar)

/-- The adjective attributed to one check:
`getCheckRunConclusionAdjective(check.conclusion).toLocaleLowerCase()`. -/
def checkAdjective (check : IRefCheck) : String :=
  toLocaleLowerCase (getCheckRunConclusionAdjective check.conclusion)

/-- One `conclusionMap.set(adj, (conclusionMap.get(adj) ?? 0) + 1)` step on the
insertion-ordered map (a JS `Map` updates an existing key in place and appends
a new key). -/
def bumpAdjective (m : List (String × Nat)) (adj : String) : List (String × Nat) :=
  if m.any (fun p => p.1 == adj) then
    m.map (fun p => if p.1 == adj then (p.1, p.2 + 1) else p)
  else
    m ++ [(adj, 1)]

/-- The `for (const check of checks)` loop building `conclusionMap`, read back
in insertion order as `summaryArray`. -/
def conclusionGroups (checks : List IRefCheck) : List (String × Nat) :=
  checks.foldl (fun m check => bumpAdjective m (checkAdjective check)) []

/-- `getCombinedCheckSummary`, transcribed from the source.  `output.slice(-1)`
is a one-element array whose template interpolation prints its sole element. -/
def getCombinedCheckSummary (combinedCheck : Option ICombinedRefCheck) : String :=
  match combinedCheck with
  | none => ""
  | some cc =>
    if cc.checks.isEmpty then ""
    else
      let summaryArray := conclusionGroups cc.checks
      if summaryArray.length > 1 then
        let output := summaryArray.map (fun p => toString p.2 ++ " " ++ p.1)
        String.intercalate ", " output.dropLast ++ ", and " ++
          (output.getLast?.getD "") ++ " checks"
      else
        match summaryArray with
        | [] => "" -- unreachable: `checks` is non-empty here
        | p :: _ =>
          toString p.2 ++ " " ++ p.1 ++ " " ++ (if p.2 > 1 then "checks" else "check")

/-- First-seen-order deduplication: the iteration order of a JS `Set` built
from a list (also used, over strings, to state the spec's "first-seen order of
distinct adjectives"). -/
def dedupFirstSeen {α : Type} [DecidableEq α] (l : List α) : List α :=
  l.foldl (fun acc a => if a ∈ acc then acc else acc ++ [a]) []

/-- `rerunJobs`: dedupe the check-suite ids via a `Set` (insertion order),
skip `null`, and re-request each remaining suite once.  The returned list is
the sequence of suite ids passed to `dispatcher.rerequestCheckSuite`. -/
def rerunJobs (checkRuns : List IRefCheck) : List Int :=
  let checkSuiteIds := dedupFirstSeen (checkRuns.map (fun cr => cr.checkSuiteId))
  checkSuiteIds.filterMap id

/-- JS template-literal interpolation of a nullable string: `null` prints as
the four characters `null`. -/
def interpNullable : Option String → String
  | none => "null"
  | some s => s

/-- `viewCheckRunsOnGitHub`, transcribed from the source.  The result is the
argument passed to `dispatcher.openInBrowser`, or `none` when no call is made.
In the source, `checkRun.htmlUrl ?? \x7btemplate\x7d` always produces a string
(a null `repository.htmlURL` interpolates as `"null"` inside the template), so
the subsequent `if (url === null) return` guard can never fire and the
function always invokes the open-URL capability. -/
def viewCheckRunsOnGitHub (repository : GitHubRepository) (prNumber : Nat)
    (checkRun : IRefCheck) : Option String :=
  let url : String :=
    match checkRun.htmlUrl with
    | some u => u
    | none => interpNullable repository.htmlURL ++ "/pull/" ++ toString prNumber
  some url

/-- What the source's dead `url === null` guard was meant to do, following the
spec's words ("if neither resolves, take no action"): only for comparison with
`viewCheckRunsOnGitHub`. -/
def viewCheckRunsOnGitHubSpec (repository : GitHubRepository) (prNumber : Nat)
    (checkRun : IRefCheck) : Option String :=
  match checkRun.htmlUrl with
  | some u => some u
  | none =>
    match repository.htmlURL with
    | some base => some (base ++ "/pull/" ++ toString prNumber)
    | none => none

/-- An in-flight suspension of `onStatus`.  `jobsUrls checks` is the `await`
of `getCheckRunActionsJobsAndLogURLS` issued for `statusChecks`;
`workflowLogs enriched` is the `await` of `getActionsWorkflowRunLogs` issued
for the phase-2 result. -/
inductive PendingPhase
  | jobsUrls (statusChecks : List IRefCheck)
  | workflowLogs (enriched : List IRefCheck)
  deriving Repr, DecidableEq

/-- Ledger entry for one subscription handed out by
`dispatcher.subscribeToCommitStatus`: its id and how many times its
`dispose` has been called. -/
structure SubRecord where
  id : Nat
  disposeCount : Nat
  deriving Repr, DecidableEq

/-- A `CICheckRunPopover` instance together with the bookkeeping the model
needs: the subscription ledger, the pending `onStatus` suspensions (tagged by
an activation id), and the React lifecycle flags. -/
structure Component where
  props : Props
  state : ICICheckRunPopoverState
  statusSubscription : Option Nat
  subs : List SubRecord
  nextSubId : Nat
  pending : List (Nat × PendingPhase)
  nextTaskId : Nat
  mounted : Bool
  unmounted : Bool
  deriving Repr, DecidableEq

/-- The null-coalescing read `check !== null ? check.checks : []` used by the
constructor, `componentDidUpdate` and `onStatus`. -/
def checksOf : Option ICombinedRefCheck → List IRefCheck
  | some cc => cc.checks
  | none => []

/-- `onStatus(check)` up to its first `await`: the empty/null case updates the
visible state synchronously and returns; the non-empty case issues the phase-2
request and suspends (a fresh activation id is recorded in `pending`). -/
def onStatus (c : Component) (check : Option ICombinedRefCheck) : Component :=
  let statusChecks := checksOf check
  if statusChecks.isEmpty then
    { c with state := { c.state with
        checkRuns := statusChecks
        loadingActionLogs := false
        loadingActionWorkflows := false } }
  else
    { c with
      pending := c.pending ++ [(c.nextTaskId, PendingPhase.jobsUrls statusChecks)]
      nextTaskId := c.nextTaskId + 1 }

/-- `unsubscribe()`: dispose the live subscription, if any, and null the field. -/
def unsubscribe (c : Component) : Component :=
  match c.statusSubscription with
  | some s =>
    { c with
      subs := c.subs.map (fun r =>
        if r.id == s then { r with disposeCount := r.disposeCount + 1 } else r)
      statusSubscription := none }
  | none => c

/-- `subscribe()`: unsubscribe first, then store the fresh subscription. -/
def subscribe (c : Component) : Component :=
  let c := unsubscribe c
  { c with
    subs := c.subs ++ [⟨c.nextSubId, 0⟩]
    statusSubscription := some c.nextSubId
    nextSubId := c.nextSubId + 1 }

/-- The constructor: read the cached status synchronously
(`tryGetCommitStatus`, whose result `cached` the environment supplies), build
the initial state — the summary is computed here — and call `onStatus` on the
snapshot. -/
def construct (props : Props) (cached : Option ICombinedRefCheck) : Component :=
  let c : Component :=
    { props := props
      state :=
        { checkRuns := checksOf cached
          checkRunSummary := getCombinedCheckSummary cached
          loadingActionLogs := true
          loadingActionWorkflows := true }
      statusSubscription := none
      subs := []
      nextSubId := 0
      pending := []
      nextTaskId := 0
      mounted := false
      unmounted := false }
  onStatus c cached

/-- The identity test in `componentDidUpdate`: repository hash or computed
commit ref differs. -/
def identityChanged (prevProps newProps : Props) : Bool :=
  newProps.repository.hash != prevProps.repository.hash ||
    getCommitRef newProps.prNumber != getCommitRef prevProps.prNumber

/-- `componentDidUpdate(prevProps)`: on an identity change, re-read the cache
(the environment supplies `cached`), set `checkRuns` from the snapshot and
re-subscribe.  No other state field is touched and `onStatus` is not called. -/
def componentDidUpdate (c : Component) (newProps : Props)
    (cached : Option ICombinedRefCheck) : Component :=
  let prevProps := c.props
  let c := { c with props := newProps }
  if identityChanged prevProps newProps then
    subscribe
      { c with state := { c.state with
          checkRuns := checksOf cached } }
  else c

/-- Resolution of the phase-2 `await`: drop the suspension, run the
`statusSubscription === null` cancellation check, and on survival publish the
enriched list, clear `loadingActionWorkflows` and issue phase 3 for the same
activation. -/
def completeJobs (c : Component) (taskId : Nat) (result : List IRefCheck) : Component :=
  let c := { c with pending := c.pending.filter (fun p => p.1 != taskId) }
  if c.statusSubscription.isNone then c
  else
    { c with
      state := { c.state with checkRuns := result, loadingActionWorkflows := false }
      pending := c.pending ++ [(taskId, PendingPhase.workflowLogs result)] }

/-- Resolution of the phase-3 `await`: drop the suspension, run the same
cancellation check, and on survival publish the fully enriched list and clear
`loadingActionLogs`. -/
def completeLogs (c : Component) (taskId : Nat) (result : List IRefCheck) : Component :=
  let c := { c with pending := c.pending.filter (fun p => p.1 != taskId) }
  if c.statusSubscription.isNone then c
  else { c with state := { c.state with checkRuns := result, loadingActionLogs := false } }

/-- Environment events driving one component instance. -/
inductive Event
  | mount
  | updateProps (newProps : Props) (cached : Option ICombinedRefCheck)
  | deliver (status : Option ICombinedRefCheck)
  | completeJobs (taskId : Nat) (result : List IRefCheck)
  | completeLogs (taskId : Nat) (result : List IRefCheck)
  | unmount
  deriving Repr, DecidableEq

/-- Whether `pending` holds a phase-2 suspension with this activation id. -/
def hasJobsTask (c : Component) (taskId : Nat) : Bool :=
  c.pending.any (fun p =>
    p.1 == taskId && match p.2 with | PendingPhase.jobsUrls _ => true | _ => false)

/-- Whether `pending` holds a phase-3 suspension with this activation id. -/
def hasLogsTask (c : Component) (taskId : Nat) : Bool :=
  c.pending.any (fun p =>
    p.1 == taskId && match p.2 with | PendingPhase.workflowLogs _ => true | _ => false)

/-- One step of the lifecycle.  `none` means the event cannot occur: React
mounts once and never updates or remounts an unmounted instance, a disposed
subscription delivers no further callbacks, and an `await` resolves only while
its suspension is pending. -/
def step (c : Component) : Event → Option Component
  | Event.mount =>
    if c.mounted || c.unmounted then none
    else some (subscribe { c with mounted := true })
  | Event.updateProps newProps cached =>
    if c.mounted && !c.unmounted then some (componentDidUpdate c newProps cached)
    else none
  | Event.deliver status =>
    if c.statusSubscription.isSome then some (onStatus c status) else none
  | Event.completeJobs taskId result =>
    if hasJobsTask c taskId then some (completeJobs c taskId result) else none
  | Event.completeLogs taskId result =>
    if hasLogsTask c taskId then some (completeLogs c taskId result) else none
  | Event.unmount =>
    if c.mounted && !c.unmounted then some (unsubscribe { c with unmounted := true })
    else none

/-- Run a sequence of environment events. -/
def run (c : Component) : List Event → Option Component
  | [] => some c
  | e :: es => (step c e).bind (fun c' => run c' es)

/-! ### Concrete fixtures used by counterexamples and witnesses -/

/-- A successful check run. -/
def successCheck : IRefCheck :=
  { name := "build", conclusion := some "success", htmlUrl := none, checkSuiteId := some 7 }

/-- A failed check run. -/
def failureCheck : IRefCheck :=
  { name := "test", conclusion := some "failure", htmlUrl := none, checkSuiteId := some 7 }

/-- Props for a demo popover on PR #1. -/
def demoProps : Props :=
  { repository := { hash := "repo-hash", htmlURL := some "https://github.com/o/r" }
    branchName := "main"
    prNumber := 1 }

/-! ### State-preservation helper lemmas -/

theorem unsubscribe_state (c : Component) : (unsubscribe c).state = c.state := by
  unfold unsubscribe
  cases c.statusSubscription <;> rfl

theorem unsubscribe_pending (c : Component) : (unsubscribe c).pending = c.pending := by
  unfold unsubscribe
  cases c.statusSubscription <;> rfl

theorem unsubscribe_nextTaskId (c : Component) : (unsubscribe c).nextTaskId = c.nextTaskId := by
  unfold unsubscribe
  cases c.statusSubscription <;> rfl

theorem subscribe_state (c : Component) : (subscribe c).state = c.state := by
  simp [subscribe, unsubscribe_state]

theorem subscribe_pending (c : Component) : (subscribe c).pending = c.pending := by
  simp [subscribe, unsubscribe_pending]

theorem subscribe_nextTaskId (c : Component) : (subscribe c).nextTaskId = c.nextTaskId := by
  simp [subscribe, unsubscribe_nextTaskId]

theorem onStatus_summary (c : Component) (check : Option ICombinedRefCheck) :
    (onStatus c check).state.checkRunSummary = c.state.checkRunSummary := by
  simp only [onStatus]
  split <;> rfl

theorem completeJobs_summary (c : Component) (taskId : Nat) (result : List IRefCheck) :
    (completeJobs c taskId result).state.checkRunSummary = c.state.checkRunSummary := by
  simp only [completeJobs]
  split <;> rfl

theorem completeLogs_summary (c : Component) (taskId : Nat) (result : List IRefCheck) :
    (completeLogs c taskId result).state.checkRunSummary = c.state.checkRunSummary := by
  simp only [completeLogs]
  split <;> rfl

theorem componentDidUpdate_summary (c : Component) (newProps : Props)
    (cached : Option ICombinedRefCheck) :
    (componentDidUpdate c newProps cached).state.checkRunSummary =
      c.state.checkRunSummary := by
  simp only [componentDidUpdate]
  split
  · rw [subscribe_state]
  · rfl

/-- No lifecycle step ever rewrites `checkRunSummary`: the only assignment in
the source is the one in the constructor. -/
theorem step_summary {c c' : Component} {e : Event} (h : step c e = some c') :
    c'.state.checkRunSummary = c.state.checkRunSummary := by
  cases e with
  | mount =>
    simp only [step] at h
    split at h
    · exact Option.noConfusion h
    · cases h
      rw [subscribe_state]
  | updateProps newProps cached =>
    simp only [step] at h
    split at h
    · cases h
      exact componentDidUpdate_summary c newProps cached
    · exact Option.noConfusion h
  | deliver status =>
    simp only [step] at h
    split at h
    · cases h
      exact onStatus_summary c status
    · exact Option.noConfusion h
  | completeJobs taskId result =>
    simp only [step] at h
    split at h
    · cases h
      exact completeJobs_summary c taskId result
    · exact Option.noConfusion h
  | completeLogs taskId result =>
    simp only [step] at h
    split at h
    · cases h
      exact completeLogs_summary c taskId result
    · exact Option.noConfusion h
  | unmount =>
    simp only [step] at h
    split at h
    · cases h
      rw [unsubscribe_state]
    · exact Option.noConfusion h

theorem run_summary {c c' : Component} {events : List Event}
    (h : run c events = some c') :
    c'.state.checkRunSummary = c.state.checkRunSummary := by
  induction events generalizing c with
  | nil =>
    simp only [run] at h
    cases h
    rfl
  | cons e es ih =>
    simp only [run] at h
    cases hstep : step c e with
    | none => rw [hstep] at h; exact Option.noConfusion h
    | some c1 =>
      rw [hstep] at h
      exact (ih h).trans (step_summary hstep)

theorem construct_summary (props : Props) (cached : Option ICombinedRefCheck) :
    (construct props cached).state.checkRunSummary = getCombinedCheckSummary cached := by
  unfold construct
  rw [onStatus_summary]

theorem unsubscribe_statusSubscription (c : Component) :
    (unsubscribe c).statusSubscription = none := by
  simp only [unsubscribe]
  cases h : c.statusSubscription
  · exact h
  · rfl

theorem unsubscribe_nextSubId (c : Component) : (unsubscribe c).nextSubId = c.nextSubId := by
  simp only [unsubscribe]
  cases c.statusSubscription <;> rfl

theorem unsubscribe_subs (c : Component) :
    (unsubscribe c).subs =
      (match c.statusSubscription with
        | some s => c.subs.map (fun r =>
            if r.id == s then { r with disposeCount := r.disposeCount + 1 } else r)
        | none => c.subs) := by
  simp only [unsubscribe]
  cases c.statusSubscription <;> rfl

theorem subscribe_subs (c : Component) :
    (subscribe c).subs =
      (unsubscribe c).subs ++ [{ id := c.nextSubId, disposeCount := 0 }] := by
  simp only [subscribe]
  rw [unsubscribe_nextSubId]

theorem subscribe_statusSubscription (c : Component) :
    (subscribe c).statusSubscription = some c.nextSubId := by
  simp only [subscribe]
  rw [unsubscribe_nextSubId]

/-! ### C1 — summary recomputation -/

/-- C1 (counterexample): the claim "after every state update the stored
summary equals the summary-aggregation function applied to the current check
list" is false.  Construct on a cached status with one successful check, then
deliver a status with one failed check through the subscription and let its
phase-2 enrichment complete: the stored summary still reads
"1 successful check" while aggregating the current list yields
"1 failed check". -/
theorem c1_counterexample :
    ((run (construct demoProps (some { checks := [successCheck] }))
        [Event.mount, Event.deliver (some { checks := [failureCheck] }),
          Event.completeJobs 1 [failureCheck]]).map
      (fun c => (c.state.checkRunSummary,
        getCombinedCheckSummary (some { checks := c.state.checkRuns })))) =
      some ("1 successful check", "1 failed check") := by
  rfl

/-- C1 (amended): `checkRunSummary` is computed exactly once, in the
constructor, from the initially cached CombinedStatus; no later state update
(subscription delivery, enrichment completion, or prop change) ever recomputes
it.  For every event sequence, the stored summary equals the aggregation of
the construction-time snapshot, not of the current check list. -/
theorem c1_summary_fixed_at_construction (props : Props)
    (cached : Option ICombinedRefCheck) (events : List Event) (c : Component)
    (h : run (construct props cached) events = some c) :
    c.state.checkRunSummary = getCombinedCheckSummary cached :=
  (run_summary h).trans (construct_summary props cached)

/-- The component reached in the C1 witness run. -/
def c1WitnessComponent : Component :=
  Option.getD
    (run (construct demoProps (some { checks := [successCheck] }))
      [Event.mount, Event.deliver (some { checks := [failureCheck] })])
    (construct demoProps none)

theorem c1_witness :
    c1WitnessComponent.state.checkRunSummary =
      getCombinedCheckSummary (some { checks := [successCheck] }) :=
  c1_summary_fixed_at_construction demoProps (some { checks := [successCheck] })
    [Event.mount, Event.deliver (some { checks := [failureCheck] })]
    c1WitnessComponent rfl

/-! ### C2 — identity change handling in componentDidUpdate -/

/-- C2 (counterexample): on an identity change (PR number 1 → 2) with a
non-empty cached status, `componentDidUpdate` does not restart the enrichment
pass: the check list is replaced by the snapshot but no phase-2 request is
issued (`pending` stays empty) and the loading flags keep their old values
(`false` here, from the earlier empty activation) — contradicting "restarts
the enrichment pass (the two-phase state machine, including its loading-flag
behavior) from that snapshot". -/
theorem c2_counterexample :
    ((run (construct demoProps none)
        [Event.mount,
          Event.updateProps { demoProps with prNumber := 2 }
            (some { checks := [failureCheck] })]).map
      (fun c => (identityChanged demoProps { demoProps with prNumber := 2 },
        c.state.checkRuns, c.pending.length,
        c.state.loadingActionLogs, c.state.loadingActionWorkflows))) =
      some (true, [failureCheck], 0, false, false) := by
  rfl

/-- C2 (amended): on an identity change of (repository, ref) while mounted,
the panel synchronously re-reads the cached CombinedStatus and replaces the
check list with that snapshot, and replaces the subscription (the old one is
disposed once, then a fresh one is created); the summary, both loading flags,
and the set of in-flight enrichment tasks are left untouched — the enrichment
pass is not restarted from the snapshot and resumes only when the new
subscription delivers a status. -/
theorem c2_identity_change (c c' : Component) (newProps : Props)
    (cached : Option ICombinedRefCheck)
    (hstep : step c (Event.updateProps newProps cached) = some c')
    (hid : identityChanged c.props newProps = true) :
    c'.state.checkRuns = checksOf cached ∧
    c'.state.checkRunSummary = c.state.checkRunSummary ∧
    c'.state.loadingActionLogs = c.state.loadingActionLogs ∧
    c'.state.loadingActionWorkflows = c.state.loadingActionWorkflows ∧
    c'.pending = c.pending ∧
    c'.nextTaskId = c.nextTaskId ∧
    c'.statusSubscription = some c.nextSubId ∧
    c'.subs =
      (match c.statusSubscription with
        | some s => c.subs.map (fun r =>
            if r.id == s then { r with disposeCount := r.disposeCount + 1 } else r)
        | none => c.subs) ++ [{ id := c.nextSubId, disposeCount := 0 }] := by
  simp only [step] at hstep
  split at hstep
  · obtain rfl : c' = componentDidUpdate c newProps cached :=
      (Option.some.inj hstep).symm
    clear hstep
    simp only [componentDidUpdate, hid, if_true]
    refine ⟨?_, ?_, ?_, ?_, ?_, ?_, ?_, ?_⟩
    · rw [subscribe_state]
    · rw [subscribe_state]
    · rw [subscribe_state]
    · rw [subscribe_state]
    · rw [subscribe_pending]
    · rw [subscribe_nextTaskId]
    · rw [subscribe_statusSubscription]
    · rw [subscribe_subs, unsubscribe_subs]
  · exact Option.noConfusion hstep

/-- The source component of the C2 witness step (after construct on an empty
cache and mount). -/
def c2WitnessBefore : Component :=
  Option.getD (run (construct demoProps none) [Event.mount]) (construct demoProps none)

/-- The target component of the C2 witness step. -/
def c2WitnessAfter : Component :=
  Option.getD
    (step c2WitnessBefore
      (Event.updateProps { demoProps with prNumber := 2 }
        (some { checks := [failureCheck] })))
    c2WitnessBefore

theorem c2_witness :
    c2WitnessAfter.state.checkRuns = [failureCheck] ∧
    c2WitnessAfter.state.checkRunSummary = c2WitnessBefore.state.checkRunSummary ∧
    c2WitnessAfter.state.loadingActionLogs = c2WitnessBefore.state.loadingActionLogs ∧
    c2WitnessAfter.state.loadingActionWorkflows =
      c2WitnessBefore.state.loadingActionWorkflows ∧
    c2WitnessAfter.pending = c2WitnessBefore.pending ∧
    c2WitnessAfter.nextTaskId = c2WitnessBefore.nextTaskId ∧
    c2WitnessAfter.statusSubscription = some c2WitnessBefore.nextSubId ∧
    c2WitnessAfter.subs =
      (match c2WitnessBefore.statusSubscription with
        | some s => c2WitnessBefore.subs.map (fun r =>
            if r.id == s then { r with disposeCount := r.disposeCount + 1 } else r)
        | none => c2WitnessBefore.subs) ++
        [{ id := c2WitnessBefore.nextSubId, disposeCount := 0 }] :=
  c2_identity_change c2WitnessBefore c2WitnessAfter
    { demoProps with prNumber := 2 } (some { checks := [failureCheck] }) rfl rfl

/-! ### C3 — openOnProvider URL resolution -/

/-- C3 (code bug): the source intends the "neither URL resolves" case to be a
no-op — the `url === null` guard and its comment say so, as does the spec —
but `checkRun.htmlUrl ?? \x7btemplate\x7d` always produces a string (a null
`repository.htmlURL` interpolates as the text `null`), so the guard is dead
and the open-URL capability is invoked with the bogus URL `null/pull/5`.  The
spec-side resolution (`viewCheckRunsOnGitHubSpec`) yields no action on the
same input. -/
theorem c3_dead_null_guard :
    viewCheckRunsOnGitHub { hash := "h", htmlURL := none } 5
        { name := "status", conclusion := some "success", htmlUrl := none,
          checkSuiteId := none } =
      some "null/pull/5" ∧
    viewCheckRunsOnGitHubSpec { hash := "h", htmlURL := none } 5
        { name := "status", conclusion := some "success", htmlUrl := none,
          checkSuiteId := none } =
      none :=
  ⟨rfl, rfl⟩

/-! ### Step inversion lemmas -/

theorem step_mount_inv {c c' : Component} (h : step c Event.mount = some c') :
    (c.mounted || c.unmounted) = false ∧ c' = subscribe { c with mounted := true } := by
  simp only [step] at h
  split at h
  · exact Option.noConfusion h
  · exact ⟨Bool.not_eq_true _ ▸ Bool.of_not_eq_true (by assumption),
      (Option.some.inj h).symm⟩

theorem step_updateProps_inv {c c' : Component} {newProps : Props}
    {cached : Option ICombinedRefCheck}
    (h : step c (Event.updateProps newProps cached) = some c') :
    (c.mounted && !c.unmounted) = true ∧ c' = componentDidUpdate c newProps cached := by
  simp only [step] at h
  split at h
  · exact ⟨by assumption, (Option.some.inj h).symm⟩
  · exact Option.noConfusion h

theorem step_deliver_inv {c c' : Component} {status : Option ICombinedRefCheck}
    (h : step c (Event.deliver status) = some c') :
    c.statusSubscription.isSome = true ∧ c' = onStatus c status := by
  simp only [step] at h
  split at h
  · exact ⟨by assumption, (Option.some.inj h).symm⟩
  · exact Option.noConfusion h

theorem step_completeJobs_inv {c c' : Component} {taskId : Nat}
    {result : List IRefCheck}
    (h : step c (Event.completeJobs taskId result) = some c') :
    hasJobsTask c taskId = true ∧ c' = completeJobs c taskId result := by
  simp only [step] at h
  split at h
  · exact ⟨by assumption, (Option.some.inj h).symm⟩
  · exact Option.noConfusion h

theorem step_completeLogs_inv {c c' : Component} {taskId : Nat}
    {result : List IRefCheck}
    (h : step c (Event.completeLogs taskId result) = some c') :
    hasLogsTask c taskId = true ∧ c' = completeLogs c taskId result := by
  simp only [step] at h
  split at h
  · exact ⟨by assumption, (Option.some.inj h).symm⟩
  · exact Option.noConfusion h

theorem step_unmount_inv {c c' : Component} (h : step c Event.unmount = some c') :
    (c.mounted && !c.unmounted) = true ∧ c' = unsubscribe { c with unmounted := true } := by
  simp only [step] at h
  split at h
  · exact ⟨by assumption, (Option.some.inj h).symm⟩
  · exact Option.noConfusion h

/-! ### C4 — teardown freezes the visible state -/

/-- A single step from a torn-down component (unmounted, subscription nulled)
leaves the visible state untouched and the component torn down. -/
theorem step_frozen {c c' : Component} {e : Event}
    (hun : c.unmounted = true) (hsub : c.statusSubscription = none)
    (h : step c e = some c') :
    c'.state = c.state ∧ c'.unmounted = true ∧ c'.statusSubscription = none := by
  cases e with
  | mount =>
    simp [step, hun] at h
  | updateProps newProps cached =>
    simp [step, hun] at h
  | deliver status =>
    simp [step, hsub] at h
  | completeJobs taskId result =>
    obtain ⟨hcond, rfl⟩ := step_completeJobs_inv h
    simp [completeJobs, hsub, hun]
  | completeLogs taskId result =>
    obtain ⟨hcond, rfl⟩ := step_completeLogs_inv h
    simp [completeLogs, hsub, hun]
  | unmount =>
    simp [step, hun] at h

theorem run_frozen {events : List Event} :
    ∀ {c c' : Component}, c.unmounted = true → c.statusSubscription = none →
      run c events = some c' →
      c'.state = c.state ∧ c'.unmounted = true ∧ c'.statusSubscription = none := by
  induction events with
  | nil =>
    intro c c' hun hsub h
    simp only [run] at h
    cases h
    exact ⟨rfl, hun, hsub⟩
  | cons e es ih =>
    intro c c' hun hsub h
    simp only [run] at h
    cases hstep : step c e with
    | none => rw [hstep] at h; exact Option.noConfusion h
    | some c1 =>
      rw [hstep] at h
      obtain ⟨h1, h2, h3⟩ := step_frozen hun hsub hstep
      obtain ⟨g1, g2, g3⟩ := ih h2 h3 h
      exact ⟨g1.trans h1, g2, g3⟩

/-- C4: after teardown — the instance is unmounted and the subscription handle
has been nulled — no sequence of further events (in particular the resolution
of enrichment calls issued before teardown) can change the visible state:
every completion handler runs the `statusSubscription === null` check, discards
its result, and leaves the check list and both loading flags unchanged. -/
theorem c4_no_mutation_after_teardown (c c' : Component) (events : List Event)
    (hun : c.unmounted = true) (hsub : c.statusSubscription = none)
    (h : run c events = some c') :
    c'.state = c.state :=
  (run_frozen hun hsub h).1

/-- A torn-down component with the phase-2 enrichment of its construction-time
activation still in flight. -/
def c4TornDown : Component :=
  Option.getD
    (run (construct demoProps (some { checks := [successCheck] }))
      [Event.mount, Event.unmount])
    (construct demoProps none)

/-- The component after the in-flight enrichment resolves post-teardown. -/
def c4AfterLateCompletion : Component :=
  Option.getD (run c4TornDown [Event.completeJobs 0 [failureCheck]]) c4TornDown

theorem c4_witness : c4AfterLateCompletion.state = c4TornDown.state :=
  c4_no_mutation_after_teardown c4TornDown c4AfterLateCompletion
    [Event.completeJobs 0 [failureCheck]] rfl rfl rfl

/-! ### C5 — the two enrichment phases -/

theorem hasJobsTask_exists {c : Component} {taskId : Nat}
    (h : hasJobsTask c taskId = true) :
    ∃ statusChecks, (taskId, PendingPhase.jobsUrls statusChecks) ∈ c.pending := by
  unfold hasJobsTask at h
  rw [List.any_eq_true] at h
  obtain ⟨⟨p1, ph⟩, hmem, hp⟩ := h
  cases ph with
  | jobsUrls s =>
    simp only [Bool.and_true, beq_iff_eq] at hp
    subst hp
    exact ⟨s, hmem⟩
  | workflowLogs s => simp at hp

theorem componentDidUpdate_pending (c : Component) (newProps : Props)
    (cached : Option ICombinedRefCheck) :
    (componentDidUpdate c newProps cached).pending = c.pending := by
  simp only [componentDidUpdate]
  split
  · rw [subscribe_pending]
  · rfl

/-- C5 (counterexample): "loadingJobLogs remains true" after phase 2 fails for
activations other than the first.  Construct on an empty cache (the empty
activation clears both flags), then deliver a non-empty status and let its
phase-2 enrichment complete while subscribed: the list is replaced and
`loadingActionWorkflows` cleared, but `loadingActionLogs` is `false`, not
`true` — `onStatus` never sets the flags back to true when a new activation
starts. -/
theorem c5_counterexample :
    ((run (construct demoProps none)
        [Event.mount, Event.deliver (some { checks := [failureCheck] }),
          Event.completeJobs 0 [failureCheck]]).map
      (fun c => (c.state.checkRuns, c.state.loadingActionWorkflows,
        c.state.loadingActionLogs))) =
      some ([failureCheck], false, false) := by
  rfl

/-- C5 (amended): within one activation on a non-empty check list, (1) when
phase 2 completes while a subscription is live, the visible list is replaced
by the job/URL-enriched list, `loadingActionWorkflows` is cleared,
`loadingActionLogs` is left unchanged (it is true throughout the first
activation but may already be false in later ones), and phase 3 is issued for
the same activation id; (2) when phase 3 completes while a subscription is
live, the visible list is replaced by the fully enriched list and
`loadingActionLogs` is cleared; (3) a phase-3 suspension can only come into
existence through the completion, under a live subscription, of a phase-2
suspension of the same activation id. -/
theorem c5_phase_discipline :
    (∀ (c c' : Component) (taskId : Nat) (result : List IRefCheck),
      step c (Event.completeJobs taskId result) = some c' →
      c.statusSubscription.isSome = true →
      c'.state.checkRuns = result ∧
      c'.state.loadingActionWorkflows = false ∧
      c'.state.loadingActionLogs = c.state.loadingActionLogs ∧
      (taskId, PendingPhase.workflowLogs result) ∈ c'.pending) ∧
    (∀ (c c' : Component) (taskId : Nat) (result : List IRefCheck),
      step c (Event.completeLogs taskId result) = some c' →
      c.statusSubscription.isSome = true →
      c'.state.checkRuns = result ∧
      c'.state.loadingActionLogs = false ∧
      c'.state.loadingActionWorkflows = c.state.loadingActionWorkflows) ∧
    (∀ (c c' : Component) (e : Event) (taskId : Nat) (result : List IRefCheck),
      step c e = some c' →
      (taskId, PendingPhase.workflowLogs result) ∈ c'.pending →
      (taskId, PendingPhase.workflowLogs result) ∈ c.pending ∨
        (e = Event.completeJobs taskId result ∧
          c.statusSubscription.isSome = true ∧
          ∃ statusChecks, (taskId, PendingPhase.jobsUrls statusChecks) ∈ c.pending)) := by
  refine ⟨?_, ?_, ?_⟩
  · intro c c' taskId result h hsome
    obtain ⟨hcond, rfl⟩ := step_completeJobs_inv h
    cases hs : c.statusSubscription with
    | none => rw [hs] at hsome; exact absurd hsome (by simp)
    | some s => simp [completeJobs, hs]
  · intro c c' taskId result h hsome
    obtain ⟨hcond, rfl⟩ := step_completeLogs_inv h
    cases hs : c.statusSubscription with
    | none => rw [hs] at hsome; exact absurd hsome (by simp)
    | some s => simp [completeLogs, hs]
  · intro c c' e taskId result h hmem
    cases e with
    | mount =>
      obtain ⟨hcond, rfl⟩ := step_mount_inv h
      rw [subscribe_pending] at hmem
      exact Or.inl hmem
    | updateProps newProps cached =>
      obtain ⟨hcond, rfl⟩ := step_updateProps_inv h
      rw [componentDidUpdate_pending] at hmem
      exact Or.inl hmem
    | deliver status =>
      obtain ⟨hcond, rfl⟩ := step_deliver_inv h
      revert hmem
      simp only [onStatus]
      split
      · exact Or.inl
      · intro hmem
        rcases List.mem_append.mp hmem with h1 | h2
        · exact Or.inl h1
        · simp at h2
    | completeJobs i r =>
      obtain ⟨hcond, rfl⟩ := step_completeJobs_inv h
      revert hmem
      simp only [completeJobs]
      split
      · intro hmem
        exact Or.inl (List.mem_of_mem_filter hmem)
      · intro hmem
        rcases List.mem_append.mp hmem with h1 | h2
        · exact Or.inl (List.mem_of_mem_filter h1)
        · rw [List.mem_singleton] at h2
          obtain ⟨h3, h4⟩ := Prod.mk.injEq _ _ _ _ ▸ h2
          obtain rfl : i = taskId := h3.symm
          obtain rfl : r = result := (PendingPhase.workflowLogs.inj h4).symm
          refine Or.inr ⟨rfl, ?_, hasJobsTask_exists hcond⟩
          cases hs : c.statusSubscription with
          | none =>
            rename_i hguard
            rw [hs] at hguard
            simp at hguard
          | some s => rfl
    | completeLogs i r =>
      obtain ⟨hcond, rfl⟩ := step_completeLogs_inv h
      revert hmem
      simp only [completeLogs]
      split
      · intro hmem
        exact Or.inl (List.mem_of_mem_filter hmem)
      · intro hmem
        exact Or.inl (List.mem_of_mem_filter hmem)
    | unmount =>
      obtain ⟨hcond, rfl⟩ := step_unmount_inv h
      rw [unsubscribe_pending] at hmem
      exact Or.inl hmem

/-- The component used in the C5 witness: constructed on a one-check cache and
mounted, so the first activation's phase-2 task 0 is in flight under a live
subscription. -/
def c5Subscribed : Component :=
  Option.getD
    (run (construct demoProps (some { checks := [successCheck] })) [Event.mount])
    (construct demoProps none)

/-- The C5 witness target: phase 2 of activation 0 completes while subscribed. -/
def c5AfterPhase2 : Component :=
  Option.getD (step c5Subscribed (Event.completeJobs 0 [failureCheck])) c5Subscribed

theorem c5_witness :
    c5AfterPhase2.state.checkRuns = [failureCheck] ∧
    c5AfterPhase2.state.loadingActionWorkflows = false ∧
    c5AfterPhase2.state.loadingActionLogs = c5Subscribed.state.loadingActionLogs ∧
    (0, PendingPhase.workflowLogs [failureCheck]) ∈ c5AfterPhase2.pending :=
  c5_phase_discipline.1 c5Subscribed c5AfterPhase2 0 [failureCheck] rfl rfl

/-! ### C6 — exactly one live subscription, disposed exactly once -/

/-- Well-formedness of the subscription ledger: every handed-out subscription
has been disposed at most once; a subscription is undisposed exactly when it
is the one currently held; all ids are below the allocation counter and are
pairwise distinct; and the held subscription, if any, is in the ledger.
Together: at most one live subscription, no double-dispose, and no leaked
(undisposed but abandoned) subscription. -/
def LedgerOk (live : Option Nat) (subs : List SubRecord) (next : Nat) : Prop :=
  (∀ r ∈ subs, r.disposeCount ≤ 1) ∧
  (∀ r ∈ subs, (live = some r.id ↔ r.disposeCount = 0)) ∧
  (∀ r ∈ subs, r.id < next) ∧
  subs.Pairwise (fun a b => a.id ≠ b.id) ∧
  (∀ s, live = some s → ∃ r ∈ subs, r.id = s)

/-- The ledger invariant of a component. -/
def SubsInvariant (c : Component) : Prop :=
  LedgerOk c.statusSubscription c.subs c.nextSubId

theorem bump_id {s : Nat} (r : SubRecord) :
    (if r.id == s then { r with disposeCount := r.disposeCount + 1 } else r).id = r.id := by
  split <;> rfl

theorem ledgerOk_dispose {s : Nat} {subs : List SubRecord} {next : Nat}
    (h : LedgerOk (some s) subs next) :
    LedgerOk none
      (subs.map (fun r =>
        if r.id == s then { r with disposeCount := r.disposeCount + 1 } else r))
      next := by
  obtain ⟨h1, h2, h3, h4, h5⟩ := h
  refine ⟨?_, ?_, ?_, ?_, ?_⟩
  · intro r hr
    obtain ⟨r0, hr0, rfl⟩ := List.mem_map.mp hr
    by_cases hid : r0.id = s
    · have hz : r0.disposeCount = 0 := (h2 r0 hr0).mp (by rw [hid])
      simp [hid, hz]
    · simpa [hid] using h1 r0 hr0
  · intro r hr
    obtain ⟨r0, hr0, rfl⟩ := List.mem_map.mp hr
    constructor
    · intro hnone; exact Option.noConfusion hnone
    · intro hzero
      exfalso
      by_cases hid : r0.id = s
      · simp [hid] at hzero
      · rw [if_neg (by simpa using hid)] at hzero
        have hsome := (h2 r0 hr0).mpr hzero
        exact hid (Option.some.inj hsome).symm
  · intro r hr
    obtain ⟨r0, hr0, rfl⟩ := List.mem_map.mp hr
    by_cases hid : r0.id = s <;> simpa [hid] using h3 r0 hr0
  · refine List.Pairwise.map _ ?_ h4
    intro a b hab
    rw [bump_id, bump_id]
    exact hab
  · intro s' hs'
    exact Option.noConfusion hs'

theorem ledgerOk_create {subs : List SubRecord} {next : Nat}
    (h : LedgerOk none subs next) :
    LedgerOk (some next) (subs ++ [{ id := next, disposeCount := 0 }]) (next + 1) := by
  obtain ⟨h1, h2, h3, h4, h5⟩ := h
  refine ⟨?_, ?_, ?_, ?_, ?_⟩
  · intro r hr
    rcases List.mem_append.mp hr with hmem | hmem
    · exact h1 r hmem
    · rw [List.mem_singleton] at hmem
      subst hmem
      exact Nat.zero_le 1
  · intro r hr
    rcases List.mem_append.mp hr with hmem | hmem
    · constructor
      · intro hsome
        have hlt := h3 r hmem
        have heq : next = r.id := Option.some.inj hsome
        omega
      · intro hzero
        exact Option.noConfusion ((h2 r hmem).mpr hzero)
    · rw [List.mem_singleton] at hmem
      subst hmem
      simp
  · intro r hr
    rcases List.mem_append.mp hr with hmem | hmem
    · exact Nat.lt_succ_of_lt (h3 r hmem)
    · rw [List.mem_singleton] at hmem
      subst hmem
      exact Nat.lt_succ_self next
  · rw [List.pairwise_append]
    refine ⟨h4, List.pairwise_singleton _ _, ?_⟩
    intro a ha b hb
    rw [List.mem_singleton] at hb
    subst hb
    exact Nat.ne_of_lt (h3 a ha)
  · intro s hsome
    exact ⟨{ id := next, disposeCount := 0 }, by simp, Option.some.inj hsome⟩

theorem subscribe_nextSubId_succ (c : Component) :
    (subscribe c).nextSubId = c.nextSubId + 1 := by
  simp only [subscribe]
  rw [unsubscribe_nextSubId]

theorem subsInvariant_unsubscribe (c : Component) (h : SubsInvariant c) :
    SubsInvariant (unsubscribe c) := by
  unfold SubsInvariant at *
  rw [unsubscribe_statusSubscription, unsubscribe_subs, unsubscribe_nextSubId]
  cases hs : c.statusSubscription with
  | none =>
    rw [hs] at h
    exact h
  | some s =>
    rw [hs] at h
    exact ledgerOk_dispose h

theorem subsInvariant_subscribe (c : Component) (h : SubsInvariant c) :
    SubsInvariant (subscribe c) := by
  have h1 := subsInvariant_unsubscribe c h
  unfold SubsInvariant at *
  rw [subscribe_statusSubscription, subscribe_subs, subscribe_nextSubId_succ]
  rw [unsubscribe_statusSubscription, unsubscribe_nextSubId] at h1
  exact ledgerOk_create h1

theorem subsInvariant_step {c c' : Component} {e : Event}
    (h : SubsInvariant c) (hs : step c e = some c') : SubsInvariant c' := by
  cases e with
  | mount =>
    obtain ⟨-, rfl⟩ := step_mount_inv hs
    exact subsInvariant_subscribe _ h
  | updateProps newProps cached =>
    obtain ⟨-, rfl⟩ := step_updateProps_inv hs
    simp only [componentDidUpdate]
    split
    · exact subsInvariant_subscribe _ h
    · exact h
  | deliver status =>
    obtain ⟨-, rfl⟩ := step_deliver_inv hs
    simp only [onStatus]
    split
    · exact h
    · exact h
  | completeJobs taskId result =>
    obtain ⟨-, rfl⟩ := step_completeJobs_inv hs
    simp only [completeJobs]
    split
    · exact h
    · exact h
  | completeLogs taskId result =>
    obtain ⟨-, rfl⟩ := step_completeLogs_inv hs
    simp only [completeLogs]
    split
    · exact h
    · exact h
  | unmount =>
    obtain ⟨-, rfl⟩ := step_unmount_inv hs
    exact subsInvariant_unsubscribe _ h

theorem subsInvariant_construct (props : Props) (cached : Option ICombinedRefCheck) :
    SubsInvariant (construct props cached) := by
  unfold construct
  simp only [onStatus]
  split
  · exact ⟨by simp, by simp, by simp, List.Pairwise.nil, by simp⟩
  · exact ⟨by simp, by simp, by simp, List.Pairwise.nil, by simp⟩

theorem subsInvariant_run {events : List Event} :
    ∀ {c c' : Component}, SubsInvariant c → run c events = some c' →
      SubsInvariant c' := by
  induction events with
  | nil =>
    intro c c' h hr
    simp only [run] at hr
    cases hr
    exact h
  | cons e es ih =>
    intro c c' h hr
    simp only [run] at hr
    cases hstep : step c e with
    | none => rw [hstep] at hr; exact Option.noConfusion hr
    | some c1 =>
      rw [hstep] at hr
      exact ih (subsInvariant_step h hstep) hr

/-- C6: in every reachable component the subscription ledger is well formed:
at most one live subscription exists at any time (exactly the currently held
one is undisposed), every subscription created by a re-subscribe or by mount
has been disposed at most — and, once superseded, exactly — once, and no
subscription leaks (teardown and re-subscription both dispose the live one
before nulling or replacing it). -/
theorem c6_single_live_subscription (props : Props)
    (cached : Option ICombinedRefCheck) (events : List Event) (c : Component)
    (h : run (construct props cached) events = some c) :
    SubsInvariant c :=
  subsInvariant_run (subsInvariant_construct props cached) h

/-- A component that has subscribed, re-subscribed on an identity change, and
torn down: its ledger holds two subscriptions, both disposed exactly once. -/
def c6Witness : Component :=
  Option.getD
    (run (construct demoProps none)
      [Event.mount, Event.updateProps { demoProps with prNumber := 2 } none,
        Event.unmount])
    (construct demoProps none)

theorem c6_witness : SubsInvariant c6Witness :=
  c6_single_live_subscription demoProps none
    [Event.mount, Event.updateProps { demoProps with prNumber := 2 } none,
      Event.unmount]
    c6Witness rfl

/-! ### C8 — empty status is terminal -/

/-- C8: whenever a null CombinedStatus or one with an empty check list reaches
`onStatus` — synchronously at construction or through the subscription
callback — the visible check list becomes empty, both loading flags become
false, and no asynchronous enrichment work is started (the set of in-flight
tasks and the activation counter are unchanged; at construction they are
empty/zero). -/
theorem c8_empty_status_terminal :
    (∀ (c c' : Component) (status : Option ICombinedRefCheck),
      step c (Event.deliver status) = some c' →
      checksOf status = [] →
      c'.state.checkRuns = [] ∧
      c'.state.loadingActionLogs = false ∧
      c'.state.loadingActionWorkflows = false ∧
      c'.pending = c.pending ∧
      c'.nextTaskId = c.nextTaskId) ∧
    (∀ (props : Props) (cached : Option ICombinedRefCheck),
      checksOf cached = [] →
      (construct props cached).state.checkRuns = [] ∧
      (construct props cached).state.loadingActionLogs = false ∧
      (construct props cached).state.loadingActionWorkflows = false ∧
      (construct props cached).pending = [] ∧
      (construct props cached).nextTaskId = 0) := by
  constructor
  · intro c c' status h hempty
    obtain ⟨-, rfl⟩ := step_deliver_inv h
    simp [onStatus, hempty]
  · intro props cached hempty
    simp [construct, onStatus, hempty]

/-- The C8 witness source: a mounted panel whose first activation (one check)
is in flight. -/
def c8Subscribed : Component :=
  Option.getD
    (run (construct demoProps (some { checks := [successCheck] })) [Event.mount])
    (construct demoProps none)

/-- The C8 witness target: the subscription delivers a status whose check list
is empty. -/
def c8AfterEmptyDelivery : Component :=
  Option.getD (step c8Subscribed (Event.deliver (some { checks := [] }))) c8Subscribed

theorem c8_witness :
    c8AfterEmptyDelivery.state.checkRuns = [] ∧
    c8AfterEmptyDelivery.state.loadingActionLogs = false ∧
    c8AfterEmptyDelivery.state.loadingActionWorkflows = false ∧
    c8AfterEmptyDelivery.pending = c8Subscribed.pending ∧
    c8AfterEmptyDelivery.nextTaskId = c8Subscribed.nextTaskId :=
  c8_empty_status_terminal.1 c8Subscribed c8AfterEmptyDelivery
    (some { checks := [] }) rfl rfl

/-! ### C10 — the null-handle test is the sole cancellation guard -/

/-- C10: every enrichment continuation decides whether to apply its result
solely by testing whether the subscription handle is null at completion time,
never by comparing activation identities: a completion with a null handle
(which also holds between construction and the first subscribe — the
constructor leaves the handle null) leaves the visible state untouched, and a
completion with any live handle applies its result — the quantification over
`taskId` is unconstrained, so a task of a superseded activation applies its
result exactly like a current one. -/
theorem c10_null_handle_sole_guard :
    (∀ (c c' : Component) (taskId : Nat) (result : List IRefCheck),
      step c (Event.completeJobs taskId result) = some c' →
      (c.statusSubscription = none → c'.state = c.state) ∧
      (c.statusSubscription ≠ none →
        c'.state =
          { c.state with checkRuns := result, loadingActionWorkflows := false })) ∧
    (∀ (c c' : Component) (taskId : Nat) (result : List IRefCheck),
      step c (Event.completeLogs taskId result) = some c' →
      (c.statusSubscription = none → c'.state = c.state) ∧
      (c.statusSubscription ≠ none →
        c'.state =
          { c.state with checkRuns := result, loadingActionLogs := false })) ∧
    (∀ (props : Props) (cached : Option ICombinedRefCheck),
      (construct props cached).statusSubscription = none) := by
  refine ⟨?_, ?_, ?_⟩
  · intro c c' taskId result h
    obtain ⟨-, rfl⟩ := step_completeJobs_inv h
    constructor
    · intro hnone
      simp [completeJobs, hnone]
    · intro hsome
      cases hs : c.statusSubscription with
      | none => exact absurd hs hsome
      | some s => simp [completeJobs, hs]
  · intro c c' taskId result h
    obtain ⟨-, rfl⟩ := step_completeLogs_inv h
    constructor
    · intro hnone
      simp [completeLogs, hnone]
    · intro hsome
      cases hs : c.statusSubscription with
      | none => exact absurd hs hsome
      | some s => simp [completeLogs, hs]
  · intro props cached
    simp only [construct, onStatus]
    split <;> rfl

/-- The C10 witness source: a mounted panel with phase-2 task 0 in flight and
a live subscription. -/
def c10Subscribed : Component :=
  Option.getD
    (run (construct demoProps (some { checks := [successCheck] })) [Event.mount])
    (construct demoProps none)

/-- The C10 witness target: task 0 completes while the handle is live. -/
def c10AfterPhase2 : Component :=
  Option.getD (step c10Subscribed (Event.completeJobs 0 [failureCheck])) c10Subscribed

theorem c10_witness :
    c10AfterPhase2.state =
      { c10Subscribed.state with
          checkRuns := [failureCheck], loadingActionWorkflows := false } :=
  (c10_null_handle_sole_guard.1 c10Subscribed c10AfterPhase2 0 [failureCheck] rfl).2
    (by decide)

/-! ### C9 — rerun deduplicates check-suite ids -/

theorem dedupFirstSeen_go_mem {α : Type} [DecidableEq α] (l : List α) :
    ∀ (acc : List α) (a : α),
      (a ∈ l.foldl (fun acc x => if x ∈ acc then acc else acc ++ [x]) acc ↔
        a ∈ acc ∨ a ∈ l) := by
  induction l with
  | nil => intro acc a; simp
  | cons x xs ih =>
    intro acc a
    simp only [List.foldl_cons]
    rw [ih]
    by_cases hx : x ∈ acc
    · rw [if_pos hx]
      simp only [List.mem_cons]
      constructor
      · rintro (h | h)
        · exact Or.inl h
        · exact Or.inr (Or.inr h)
      · rintro (h | h | h)
        · exact Or.inl h
        · exact Or.inl (h ▸ hx)
        · exact Or.inr h
    · rw [if_neg hx]
      simp only [List.mem_append, List.mem_singleton, List.mem_cons]
      tauto

theorem dedupFirstSeen_mem {α : Type} [DecidableEq α] (l : List α) (a : α) :
    a ∈ dedupFirstSeen l ↔ a ∈ l := by
  unfold dedupFirstSeen
  rw [dedupFirstSeen_go_mem]
  simp

theorem dedupFirstSeen_go_nodup {α : Type} [DecidableEq α] (l : List α) :
    ∀ acc : List α, acc.Nodup →
      (l.foldl (fun acc x => if x ∈ acc then acc else acc ++ [x]) acc).Nodup := by
  induction l with
  | nil => intro acc h; simpa using h
  | cons x xs ih =>
    intro acc h
    simp only [List.foldl_cons]
    apply ih
    by_cases hx : x ∈ acc
    · rwa [if_pos hx]
    · rw [if_neg hx]
      exact List.Nodup.append h (List.nodup_singleton x)
        (List.disjoint_singleton.mpr hx)

theorem dedupFirstSeen_nodup {α : Type} [DecidableEq α] (l : List α) :
    (dedupFirstSeen l).Nodup :=
  dedupFirstSeen_go_nodup l [] List.nodup_nil

theorem count_filterMap_id_of_nodup {α : Type} [DecidableEq α]
    (l : List (Option α)) (h : l.Nodup) (a : α) :
    (l.filterMap id).count a = if some a ∈ l then 1 else 0 := by
  induction l with
  | nil => simp
  | cons x xs ih =>
    obtain ⟨hx, hxs⟩ := List.nodup_cons.mp h
    cases x with
    | none => simpa using ih hxs
    | some b =>
      have hfm : List.filterMap id (some b :: xs) = b :: List.filterMap id xs := by
        simp
      rw [hfm, List.count_cons]
      by_cases hba : a = b
      · subst hba
        rw [ih hxs]
        simp [hx]
      · rw [ih hxs]
        have hab : ¬b = a := fun h => hba h.symm
        simp [hba, hab]

/-- C9: for every check list, `rerunJobs` invokes the re-request-check-suite
action exactly once per distinct non-null check-suite id occurring in the
list — the number of re-request calls carrying `suiteId` is 1 when some check
run carries that suite id and 0 otherwise, no matter how many check runs
share it — and null suite ids produce no call at all. -/
theorem c9_rerun_once_per_suite (checkRuns : List IRefCheck) (suiteId : Int) :
    (rerunJobs checkRuns).count suiteId =
      if some suiteId ∈ checkRuns.map (fun cr => cr.checkSuiteId) then 1 else 0 := by
  unfold rerunJobs
  rw [count_filterMap_id_of_nodup _ (dedupFirstSeen_nodup _)]
  simp [dedupFirstSeen_mem]

/-! ### C7 — the summary aggregation function -/

theorem map_congr_mem {α β : Type} {f g : α → β} :
    ∀ l : List α, (∀ a ∈ l, f a = g a) → l.map f = l.map g
  | [], _ => rfl
  | a :: l, h => by
    simp only [List.map_cons]
    rw [h a (List.mem_cons_self a l),
      map_congr_mem l (fun b hb => h b (List.mem_cons_of_mem a hb))]

theorem dedupFirstSeen_append_singleton {α : Type} [DecidableEq α]
    (l : List α) (x : α) :
    dedupFirstSeen (l ++ [x]) =
      if x ∈ dedupFirstSeen l then dedupFirstSeen l else dedupFirstSeen l ++ [x] := by
  unfold dedupFirstSeen
  rw [List.foldl_append]
  rfl

theorem bumpFold_eq (l : List String) :
    l.foldl bumpAdjective [] =
      (dedupFirstSeen l).map (fun a => (a, l.count a)) := by
  induction l using List.reverseRecOn with
  | nil => rfl
  | append_singleton l x ih =>
    rw [List.foldl_append, List.foldl_cons, List.foldl_nil, ih,
      dedupFirstSeen_append_singleton]
    by_cases hx : x ∈ dedupFirstSeen l
    · rw [if_pos hx]
      unfold bumpAdjective
      have hcond : ((dedupFirstSeen l).map (fun a => (a, l.count a))).any
          (fun p => p.1 == x) = true :=
        List.any_eq_true.mpr
          ⟨(x, l.count x), List.mem_map_of_mem (fun a => (a, l.count a)) hx, by simp⟩
      rw [if_pos hcond]
      rw [List.map_map]
      apply map_congr_mem
      intro a ha
      by_cases hax : a = x
      · subst hax
        simp [List.count_append, Function.comp]
      · simp [List.count_append, Function.comp, hax]
    · rw [if_neg hx]
      unfold bumpAdjective
      have hany : ((dedupFirstSeen l).map (fun a => (a, l.count a))).any
          (fun p => p.1 == x) = false := by
        rw [List.any_eq_false]
        intro p hp
        obtain ⟨a0, ha0, rfl⟩ := List.mem_map.mp hp
        simp only [beq_iff_eq]
        intro heq
        exact hx (heq ▸ ha0)
      rw [if_neg (by rw [hany]; exact Bool.false_ne_true)]
      rw [List.map_append]
      congr 1
      · apply map_congr_mem
        intro a ha
        have hax : ¬ a = x := fun heq => hx (heq ▸ ha)
        simp [List.count_append, hax]
      · have hx0 : l.count x = 0 :=
          List.count_eq_zero.mpr (fun hmem => hx ((dedupFirstSeen_mem l x).mpr hmem))
        simp [List.count_append, hx0]

theorem conclusionGroups_eq (checks : List IRefCheck) :
    conclusionGroups checks =
      (dedupFirstSeen (checks.map checkAdjective)).map
        (fun a => (a, (checks.map checkAdjective).count a)) := by
  unfold conclusionGroups
  rw [← bumpFold_eq, List.foldl_map]

/-- Follows the spec's words, for comparison with `getCombinedCheckSummary`:
adjectives in first-seen order of the lower-cased conclusion adjectives,
counts per adjective; empty input yields the empty string; a single group
yields "count adjective check(s)" with pluralization by count; several groups
yield the Oxford-comma join whose final segment always says "checks". -/
def summarizeSpec (checks : List IRefCheck) : String :=
  let adjs := checks.map checkAdjective
  match dedupFirstSeen adjs with
  | [] => ""
  | [a] =>
    toString (adjs.count a) ++ " " ++ a ++ " " ++
      (if adjs.count a > 1 then "checks" else "check")
  | gs =>
    let segs := gs.map (fun a => toString (adjs.count a) ++ " " ++ a)
    String.intercalate ", " segs.dropLast ++ ", and " ++
      (segs.getLast?.getD "") ++ " checks"

/-- C7: the summary aggregation agrees with the spec-side description on
every input: empty input (and a null CombinedStatus) yields the empty string;
checks are grouped by lower-cased conclusion adjective in first-seen order; a
single group yields "count adjective check(s)" with "checks" exactly when the
count exceeds 1; several groups yield the Oxford-comma join whose final
segment always says "checks" — in particular one success plus one failure
yields "1 successful, and 1 failed checks". -/
theorem c7_summary_agrees_with_spec :
    (∀ checks : List IRefCheck,
      getCombinedCheckSummary (some { checks := checks }) = summarizeSpec checks) ∧
    getCombinedCheckSummary none = "" ∧
    getCombinedCheckSummary (some { checks := [successCheck, failureCheck] }) =
      "1 successful, and 1 failed checks" ∧
    getCombinedCheckSummary (some { checks := [successCheck] }) =
      "1 successful check" ∧
    getCombinedCheckSummary (some { checks := [successCheck, successCheck] }) =
      "2 successful checks" := by
  refine ⟨?_, rfl, rfl, rfl, rfl⟩
  intro checks
  cases checks with
  | nil => rfl
  | cons c0 cs =>
    simp only [getCombinedCheckSummary, summarizeSpec]
    rw [if_neg (by simp)]
    rw [conclusionGroups_eq]
    have hmem : checkAdjective c0 ∈ dedupFirstSeen ((c0 :: cs).map checkAdjective) :=
      (dedupFirstSeen_mem _ _).mpr (List.mem_map_of_mem _ (List.mem_cons_self _ _))
    rcases hD : dedupFirstSeen ((c0 :: cs).map checkAdjective) with - | ⟨a, - | ⟨b, rest⟩⟩
    · rw [hD] at hmem
      exact absurd hmem (List.not_mem_nil _)
    · rw [if_neg (by simp)]
      rfl
    · rw [if_pos (by simp only [List.length_map, List.length_cons]; omega)]
      rw [List.map_map]
      rfl

end CICheckRunPopover
